import Mathlib

/-!
Verification development for the plotting service in `api/plot.py`.

The embedding models:
* JSON-like values (`JVal`) and Python dicts as association lists (`Dict`);
* the default payload `DEFAULT_PAYLOAD` (floating constants such as `-2 * math.pi`
  are embedded as the exact rational value of the IEEE-754 double);
* Python coercions `float(...)`, `int(...)`, `str(...)`, truthiness;
* the denylist regex scan of `validate_payload`;
* `parse_payload`, `validate_payload` (the latter in a state-passing form
  `validate_core` that also returns the dict as mutated at exit, used for the
  heap model of in-place mutation);
* the expression evaluator `evaluate_expression` over an expression AST with
  numpy-style elementwise arithmetic and IEEE special values;
* the POST handler's error routing (ValueError ⇒ 400, anything else ⇒ 500).

JSON numbers are modelled as exact rationals; decimal string literals are
parsed exactly (exponents, `inf`, `nan` and underscores are not modelled — no
property below exercises them).
-/

/- The Batteries rational-number operations are sealed against unfolding;
the concrete evaluations below run them inside `decide`/`rfl`, so they are
unsealed for this file. -/
unseal Rat.mul Rat.inv Rat.add Rat.sub Rat.ofScientific

namespace Plot

/-- A JSON-like value as produced by `json.loads`: numbers are modelled as
exact rationals (Python's int/float distinction is not tracked). -/
inductive JVal where
  | num (q : ℚ)
  | str (s : String)
  | bool (b : Bool)
  | null
  | arr (l : List JVal)
  | obj (l : List (String × JVal))
  deriving Repr

/-- `v is None`. -/
def JVal.isNull : JVal → Bool
  | .null => true
  | _ => false

/-- Is the decoded JSON value a key/value object (a Python dict)? -/
def JVal.isObj : JVal → Bool
  | .obj _ => true
  | _ => false

/-- A Python dict with string keys, as an association list in insertion order. -/
abbrev Dict := List (String × JVal)

/-- `d[k] = v`: replace the value of an existing key in place (keeping its
insertion position, as a Python dict does), else append a new entry. -/
def dictSet : Dict → String → JVal → Dict
  | [], k, v => [(k, v)]
  | p :: rest, k, v => if p.1 == k then (k, v) :: rest else p :: dictSet rest k v

/-- `d.get(k)`: the value stored under key `k`, if any. -/
def dictGet : Dict → String → Option JVal
  | [], _ => none
  | p :: rest, k => if p.1 == k then some p.2 else dictGet rest k

/-- The exact rational value of the IEEE-754 double `math.pi`. -/
def piFloat : ℚ := 884279719003555 / 281474976710656

/-- `DEFAULT_PAYLOAD` from the source. -/
def DEFAULT_PAYLOAD : Dict :=
  [("expression", .str "sin(2 * pi * x)"),
   ("xMin", .num (-2 * piFloat)),
   ("xMax", .num (2 * piFloat)),
   ("samples", .num 500),
   ("title", .str "Courbe paramétrable"),
   ("xLabel", .str "x"),
   ("yLabel", .str "f(x)"),
   ("color", .str "#2563eb"),
   ("lineWidth", .num 2),
   ("grid", .bool true),
   ("marker", .str "")]

/-! ### Python coercions -/

/-- Leading and trailing whitespace removed. -/
def stripChars (cs : List Char) : List Char :=
  ((cs.dropWhile Char.isWhitespace).reverse.dropWhile Char.isWhitespace).reverse

/-- Python `s.strip()`. -/
def pyStrip (s : String) : String :=
  ⟨stripChars s.data⟩

/-- Digits of a decimal literal folded into a natural number. -/
def natOfDigits (cs : List Char) : Nat :=
  cs.foldl (fun a c => a * 10 + (c.toNat - 48)) 0

/-- Unsigned part of a Python float literal: digits with an optional
fractional part (`"12"`, `"12.5"`, `"12."`, `".5"`). -/
def parseFloatCore (cs : List Char) : Option ℚ :=
  let ip := cs.takeWhile Char.isDigit
  let rest := cs.dropWhile Char.isDigit
  match rest with
  | [] => if ip.isEmpty then none else some (natOfDigits ip)
  | '.' :: fp =>
      if fp.all Char.isDigit && !(ip.isEmpty && fp.isEmpty) then
        some ((natOfDigits ip : ℚ) + (natOfDigits fp : ℚ) / (10 : ℚ) ^ fp.length)
      else none
  | _ => none

/-- `float(s)` on a string: strip whitespace, optional sign, decimal literal. -/
def pyFloatOfString (s : String) : Option ℚ :=
  match stripChars s.data with
  | '-' :: rest => (parseFloatCore rest).map (fun q => -q)
  | '+' :: rest => parseFloatCore rest
  | cs => parseFloatCore cs

/-- `int(s)` on a string: strip whitespace, optional sign, digits only
(`int("3.5")` raises in Python and is `none` here). -/
def pyIntOfString (s : String) : Option Int :=
  match stripChars s.data with
  | '-' :: rest =>
      if rest.isEmpty || !rest.all Char.isDigit then none
      else some (-(natOfDigits rest : Int))
  | '+' :: rest =>
      if rest.isEmpty || !rest.all Char.isDigit then none
      else some (natOfDigits rest : Int)
  | cs =>
      if cs.isEmpty || !cs.all Char.isDigit then none
      else some (natOfDigits cs : Int)

/-- Python `float(v)`: numbers pass through, bools become 0/1, numeric
strings are parsed, everything else raises (`none`). -/
def pyFloat : JVal → Option ℚ
  | .num q => some q
  | .bool b => some (if b then 1 else 0)
  | .str s => pyFloatOfString s
  | _ => none

/-- Python `int(v)`: floats truncate toward zero, bools become 0/1, integer
strings are parsed, everything else raises (`none`). -/
def pyInt : JVal → Option Int
  | .num q => some (q.num.tdiv q.den)
  | .bool b => some (if b then 1 else 0)
  | .str s => pyIntOfString s
  | _ => none

/-- Python `str(v)`. The exact repr of numbers and containers is
inessential to every property below; what matters is that it is non-empty
for non-string values. Containers are rendered with fixed brackets. -/
def pyStr : JVal → String
  | .str s => s
  | .bool b => if b then "True" else "False"
  | .null => "None"
  | .num q => if q.den == 1 then toString q.num else toString q
  | .arr _ => "[...]"
  | .obj _ => "\x7b...\x7d"

/-- Python truthiness of a JSON value. -/
def truthy : JVal → Bool
  | .num q => q != 0
  | .str s => s != ""
  | .bool b => b
  | .null => false
  | .arr l => !l.isEmpty
  | .obj l => !l.isEmpty

/-! ### The denylist scan (`re.search` of `__|import|\bexec\b|\beval\b|\bos\b|\bsys\b`) -/

/-- A regex word character (`\w`), ASCII fragment. -/
def isWordChar (c : Char) : Bool := c.isAlphanum || c == '_'

/-- `\b` against the character on one side of a position: a boundary stands
at the ends of the string and next to a non-word character. -/
def boundaryOk : Option Char → Bool
  | none => true
  | some c => !isWordChar c

/-- Does `needle` occur as a contiguous substring of `hay`? -/
def hasSub (needle hay : List Char) : Bool :=
  hay.tails.any (fun t => needle.isPrefixOf t)

/-- Does `needle` occur in `hay` with word boundaries on both sides?
`prev` is the character just before `hay` (none at the start). -/
def hasWordFrom (needle : List Char) (prev : Option Char) : List Char → Bool
  | [] => false
  | c :: rest =>
      (boundaryOk prev && needle.isPrefixOf (c :: rest) &&
        boundaryOk ((c :: rest).drop needle.length).head?) ||
      hasWordFrom needle (some c) rest

/-- Word-boundary match anywhere in the string. -/
def hasWord (needle hay : List Char) : Bool :=
  hasWordFrom needle none hay

/-- The scan of line 87: `re.search(r"__|import|\bexec\b|\beval\b|\bos\b|\bsys\b", e)`. -/
def forbiddenScan (s : String) : Bool :=
  hasSub "__".data s.data || hasSub "import".data s.data ||
  hasWord "exec".data s.data || hasWord "eval".data s.data ||
  hasWord "os".data s.data || hasWord "sys".data s.data

/-! ### Error taxonomy

Every failure `validate_payload` / `parse_payload` / `evaluate_expression`
raises deliberately is a Python `ValueError`; the non-`ValueError`
constructors model exceptions that escape those functions (`AttributeError`
from `data.items()` on a non-dict, `KeyError` from a missing key outside a
try block, `TypeError` from `np.array` on a non-numeric object). -/

inductive Err where
  | malformedInput (msg : String)
  | validationError (msg : String)
  | evaluationError (msg : String)
  | shapeMismatch (msg : String)
  | nonFiniteResult (msg : String)
  | attributeError (msg : String)
  | keyError (msg : String)
  | typeError (msg : String)
  deriving Repr, BEq, DecidableEq

/-- Which of the raised exceptions are Python `ValueError`s (these are the
ones `do_POST` turns into HTTP 400). -/
def Err.isValueError : Err → Bool
  | .malformedInput _ | .validationError _ | .evaluationError _
  | .shapeMismatch _ | .nonFiniteResult _ => true
  | .attributeError _ | .keyError _ | .typeError _ => false

/-- The message carried by a failure. -/
def Err.message : Err → String
  | .malformedInput m | .validationError m | .evaluationError m
  | .shapeMismatch m | .nonFiniteResult m | .attributeError m
  | .keyError m | .typeError m => m

def intervalMsg : String := "Intervalle invalide: xMin doit être < xMax"
def samplesMsg : String := "Le nombre d\x27échantillons doit être entre 2 et 10000"
def emptyExprMsg : String := "L\x27expression ne peut pas être vide."
def denyMsg : String := "L\x27expression contient des éléments non autorisés."
def lineWidthMsg : String := "L\x27épaisseur de ligne doit être entre 0.1 et 10."
def malformedPrefix : String := "Requête illisible (JSON invalide): "
def evalErrPrefix : String := "Impossible d\x27évaluer l\x27expression: "
def shapeMsg : String := "L\x27expression doit produire une valeur pour chaque point x."
def nonFiniteMsg : String := "L\x27expression génère des valeurs non finies."

/-! ### `parse_payload` -/

/-- The outcome of reading the request body: empty, undecodable JSON
(carrying the decoder's message), or a decoded JSON value. -/
inductive Body where
  | empty
  | invalid (msg : String)
  | parsed (v : JVal)
  deriving Repr

/-- A printable type name for the `AttributeError` message raised by
`data.items()` on a non-dict (Python prints `int`, `list`, ... here; the
exact name is inessential). -/
def jtypeName : JVal → String
  | .num _ => "number"
  | .str _ => "str"
  | .bool _ => "bool"
  | .null => "NoneType"
  | .arr _ => "list"
  | .obj _ => "dict"

/-- `payload.update(\x7bk: v for k, v in data.items() if v is not None\x7d)`
applied to a starting dict `d`. -/
def mergeKVs (d : Dict) (kvs : List (String × JVal)) : Dict :=
  kvs.foldl (fun acc p => if p.2.isNull then acc else dictSet acc p.1 p.2) d

/-- `parse_payload` (lines 53–64): empty body returns a copy of the
defaults; undecodable JSON raises `ValueError` with the decode error
embedded; a decoded non-object raises `AttributeError` at `data.items()`;
an object is merged over a copy of the defaults, null values skipped. -/
def parse_payload : Body → Except Err Dict
  | .empty => .ok DEFAULT_PAYLOAD
  | .invalid m => .error (.malformedInput (malformedPrefix ++ m))
  | .parsed v =>
      match v with
      | .obj kvs => .ok (mergeKVs DEFAULT_PAYLOAD kvs)
      | w => .error (.attributeError
          ("\x27" ++ jtypeName w ++ "\x27 object has no attribute \x27items\x27"))

/-! ### `validate_payload` -/

/-- `float(payload[k])` under the enclosing `except Exception` : a missing
key (`KeyError`) and a non-coercible value (`ValueError`/`TypeError`) are
both `none`. -/
def floatField (p : Dict) (k : String) : Option ℚ :=
  (dictGet p k).bind pyFloat

/-- `int(payload[k])` under the enclosing `except Exception`. -/
def intField (p : Dict) (k : String) : Option Int :=
  (dictGet p k).bind pyInt

/-- `str(payload.get(k, "")).strip() or DEFAULT_PAYLOAD[k]`. -/
def strOrDefault (p : Dict) (k : String) (dflt : String) : String :=
  let s := pyStrip (match dictGet p k with
                    | none => ""
                    | some v => pyStr v)
  if s == "" then dflt else s

/-- `str(payload.get(k) or dflt)`. -/
def strOrTruthy (p : Dict) (k : String) (dflt : JVal) : String :=
  match dictGet p k with
  | none => pyStr dflt
  | some v => if truthy v then pyStr v else pyStr dflt

/-- `bool(payload.get("grid", DEFAULT_PAYLOAD["grid"]))`. -/
def gridField (p : Dict) : Bool :=
  match dictGet p "grid" with
  | none => true
  | some v => truthy v

/-- `validate_payload` (lines 67–109) in state-passing form: the returned
dict is the state of the (in Python, in-place mutated) payload at exit,
and the second component is the raised error, if any.  The check order is
that of the source: interval, samples, empty expression, denylist, then
— after the display-field writes, none of which can fail — line width and
grid. -/
def validate_core (p : Dict) : Dict × Option Err :=
  match floatField p "xMin", floatField p "xMax" with
  | some xmin, some xmax =>
    if xmin ≥ xmax then (p, some (.validationError intervalMsg)) else
    match intField p "samples" with
    | some n =>
      if !(2 ≤ n && n ≤ 10000) then (p, some (.validationError samplesMsg)) else
      match dictGet p "expression" with
      | none => (p, some (.keyError "expression"))
      | some ev =>
        let ex := pyStrip (pyStr ev)
        if ex == "" then (p, some (.validationError emptyExprMsg)) else
        if forbiddenScan ex then (p, some (.validationError denyMsg)) else
        let p1 := dictSet p "xMin" (.num xmin)
        let p2 := dictSet p1 "xMax" (.num xmax)
        let p3 := dictSet p2 "samples" (.num n)
        let p4 := dictSet p3 "expression" (.str ex)
        let p5 := dictSet p4 "title" (.str (strOrDefault p4 "title" "Courbe paramétrable"))
        let p6 := dictSet p5 "xLabel" (.str (strOrDefault p5 "xLabel" "x"))
        let p7 := dictSet p6 "yLabel" (.str (strOrDefault p6 "yLabel" "f(x)"))
        let p8 := dictSet p7 "color" (.str (strOrTruthy p7 "color" (.str "#2563eb")))
        let p9 := dictSet p8 "marker" (.str (strOrTruthy p8 "marker" (.str "")))
        match floatField p9 "lineWidth" with
        | some lw =>
            if !(1/10 ≤ lw && lw ≤ 10) then (p9, some (.validationError lineWidthMsg)) else
            let pa := dictSet p9 "lineWidth" (.num lw)
            let pb := dictSet pa "grid" (.bool (gridField pa))
            (pb, none)
        | none => (p9, some (.validationError lineWidthMsg))
    | none => (p, some (.validationError samplesMsg))
  | _, _ => (p, some (.validationError intervalMsg))

/-- `validate_payload` as a fallible function. -/
def validate_payload (p : Dict) : Except Err Dict :=
  match validate_core p with
  | (d, none) => .ok d
  | (_, some e) => .error e

/-! ### Floating-point values

Element values of the numeric arrays: an exact rational or one of the IEEE
special values.  Negative zero is not modelled (no property depends on it). -/

inductive FVal where
  | fin (q : ℚ)
  | inf
  | neginf
  | nan
  deriving Repr, DecidableEq

/-- `np.isfinite`. -/
def FVal.isFinite : FVal → Bool
  | .fin _ => true
  | _ => false

/-- IEEE negation. -/
def fneg : FVal → FVal
  | .fin q => .fin (-q)
  | .inf => .neginf
  | .neginf => .inf
  | .nan => .nan

/-- IEEE addition. -/
def fadd : FVal → FVal → FVal
  | .fin a, .fin b => .fin (a + b)
  | .nan, _ => .nan
  | _, .nan => .nan
  | .inf, .neginf => .nan
  | .neginf, .inf => .nan
  | .inf, _ => .inf
  | _, .inf => .inf
  | .neginf, _ => .neginf
  | _, .neginf => .neginf

/-- IEEE subtraction. -/
def fsub (a b : FVal) : FVal := fadd a (fneg b)

/-- IEEE multiplication (`inf * 0 = nan`). -/
def fmul : FVal → FVal → FVal
  | .fin a, .fin b => .fin (a * b)
  | .nan, _ => .nan
  | _, .nan => .nan
  | .inf, .inf => .inf
  | .inf, .neginf => .neginf
  | .neginf, .inf => .neginf
  | .neginf, .neginf => .inf
  | .inf, .fin b => if 0 < b then .inf else if b < 0 then .neginf else .nan
  | .fin a, .inf => if 0 < a then .inf else if a < 0 then .neginf else .nan
  | .neginf, .fin b => if 0 < b then .neginf else if b < 0 then .inf else .nan
  | .fin a, .neginf => if 0 < a then .neginf else if a < 0 then .inf else .nan

/-- numpy (IEEE) division: division by zero yields `inf`/`-inf`/`nan`
rather than raising (the sign of zero is not modelled). -/
def fdiv : FVal → FVal → FVal
  | .fin a, .fin b =>
      if b ≠ 0 then .fin (a / b)
      else if 0 < a then .inf else if a < 0 then .neginf else .nan
  | .nan, _ => .nan
  | _, .nan => .nan
  | .inf, .fin b => if 0 ≤ b then .inf else .neginf
  | .neginf, .fin b => if 0 ≤ b then .neginf else .inf
  | .fin _, .inf => .fin 0
  | .fin _, .neginf => .fin 0
  | .inf, .inf => .nan
  | .inf, .neginf => .nan
  | .neginf, .inf => .nan
  | .neginf, .neginf => .nan

/-! ### The expression language

`eval` receives an arbitrary Python expression; the properties below concern
the numeric fragment the service is designed for (the spec's §9 grammar:
numbers, names, unary minus, the four binary operators, and calls of the
enumerated table functions), embedded as an AST. -/

inductive Expr where
  | num (q : ℚ)
  | name (s : String)
  | neg (e : Expr)
  | add (a b : Expr)
  | sub (a b : Expr)
  | mul (a b : Expr)
  | div (a b : Expr)
  | call (f : String) (arg : Expr)
  deriving Repr, DecidableEq

/-- A value the evaluator can produce: a scalar or a one-dimensional array. -/
inductive Val where
  | scalar (v : FVal)
  | array (l : List FVal)
  deriving Repr, DecidableEq

/-- An entry of the evaluation namespace: a plain value, a vectorized
function, the `np` module object, or the empty dict that the globals
entry `__builtins__` exposes. -/
inductive EnvVal where
  | val (v : Val)
  | func (f : FVal → FVal)
  | module
  | builtinsDict

/-- The exact rational value of the IEEE-754 double `math.e`. -/
def eFloat : ℚ := 6121026514868073 / 2251799813685248

/-- Elementwise scalar model of the transcendental table entries.  No
property below evaluates any of them — only the set of names and the
elementwise call structure matter — so their pointwise value is fixed
arbitrarily at finite zero. -/
def ufuncModel : FVal → FVal := fun _ => .fin 0

/-- numpy `abs`, modelled exactly (it is cheap to do so). -/
def absF : FVal → FVal
  | .fin q => .fin |q|
  | .inf => .inf
  | .neginf => .inf
  | .nan => .nan

/-- `SAFE_FUNCTIONS` (lines 18–36): the fixed symbol table. -/
def SAFE_FUNCTIONS : List (String × EnvVal) :=
  [("np", .module),
   ("sin", .func ufuncModel),
   ("cos", .func ufuncModel),
   ("tan", .func ufuncModel),
   ("arcsin", .func ufuncModel),
   ("arccos", .func ufuncModel),
   ("arctan", .func ufuncModel),
   ("sinh", .func ufuncModel),
   ("cosh", .func ufuncModel),
   ("tanh", .func ufuncModel),
   ("exp", .func ufuncModel),
   ("log", .func ufuncModel),
   ("log10", .func ufuncModel),
   ("sqrt", .func ufuncModel),
   ("abs", .func absF),
   ("pi", .val (.scalar (.fin piFloat))),
   ("e", .val (.scalar (.fin eFloat)))]

/-- Name lookup in `eval`'s namespace: `safe_locals` is the symbol table
with `x` bound (after the table, so it would shadow) to the sample array;
the globals dict `\x7b"__builtins__": \x7b\x7d\x7d` additionally makes the
name `__builtins__` itself resolve to the empty dict (and, being
explicitly present, stops CPython from injecting the real builtins);
every other name is a `NameError`. -/
def envLookup (x : List ℚ) (n : String) : Option EnvVal :=
  if n == "x" then some (.val (.array (x.map FVal.fin)))
  else
    match SAFE_FUNCTIONS.find? (fun p => p.1 == n) with
    | some p => some p.2
    | none => if n == "__builtins__" then some .builtinsDict else none

/-- Apply a binary IEEE scalar operation with numpy broadcasting: equal
lengths act pointwise, a length-1 array broadcasts against any length, any
other mismatch is numpy's broadcast `ValueError`.  Operands that are not
numeric values (the module, a bare function) are `TypeError`s. -/
def binVal (op : FVal → FVal → FVal) : EnvVal → EnvVal → Except String Val
  | .val (.scalar a), .val (.scalar b) => .ok (.scalar (op a b))
  | .val (.scalar a), .val (.array l) => .ok (.array (l.map (fun b => op a b)))
  | .val (.array l), .val (.scalar b) => .ok (.array (l.map (fun a => op a b)))
  | .val (.array la), .val (.array lb) =>
      if la.length == lb.length then .ok (.array (la.zipWith op lb))
      else match la, lb with
        | [a], lb => .ok (.array (lb.map (fun b => op a b)))
        | la, [b] => .ok (.array (la.map (fun a => op a b)))
        | _, _ => .error "operands could not be broadcast together"
  | _, _ => .error "unsupported operand type"

/-- Division: Python raises `ZeroDivisionError` on scalar ÷ scalar with a
zero denominator; as soon as an array is involved numpy's IEEE semantics
apply (`fdiv`). -/
def divVal : EnvVal → EnvVal → Except String Val
  | .val (.scalar a), .val (.scalar (.fin b)) =>
      if b == 0 then .error "division by zero" else .ok (.scalar (fdiv a (.fin b)))
  | .val (.scalar a), .val (.scalar b) => .ok (.scalar (fdiv a b))
  | va, vb => binVal fdiv va vb

/-- Unary minus. -/
def negVal : EnvVal → Except String Val
  | .val (.scalar a) => .ok (.scalar (fneg a))
  | .val (.array l) => .ok (.array (l.map fneg))
  | _ => .error "bad operand type for unary -"

/-- Evaluate an AST against the restricted namespace.  Every Python
exception the evaluation can raise is an `error` here; names are resolved
through `envLookup` and nothing else. -/
def evalE (x : List ℚ) : Expr → Except String EnvVal
  | .num q => .ok (.val (.scalar (.fin q)))
  | .name n =>
      match envLookup x n with
      | some v => .ok v
      | none => .error ("name \x27" ++ n ++ "\x27 is not defined")
  | .neg e => do
      let v ← evalE x e
      let r ← negVal v
      return .val r
  | .add a b => do
      let va ← evalE x a
      let vb ← evalE x b
      let r ← binVal fadd va vb
      return .val r
  | .sub a b => do
      let va ← evalE x a
      let vb ← evalE x b
      let r ← binVal fsub va vb
      return .val r
  | .mul a b => do
      let va ← evalE x a
      let vb ← evalE x b
      let r ← binVal fmul va vb
      return .val r
  | .div a b => do
      let va ← evalE x a
      let vb ← evalE x b
      let r ← divVal va vb
      return .val r
  | .call f a =>
      match envLookup x f with
      | none => .error ("name \x27" ++ f ++ "\x27 is not defined")
      | some (.func g) => do
          let va ← evalE x a
          match va with
          | .val (.scalar s) => return .val (.scalar (g s))
          | .val (.array l) => return .val (.array (l.map g))
          | _ => .error "loop of ufunc does not support argument"
      | some _ => .error "object is not callable"

/-- `evaluate_expression` (lines 112–126).  A successful raw evaluation
that is not an `ndarray` is passed through `np.array(result, dtype=float)`:
a scalar becomes a **zero-dimensional** array, whose shape `()` never
equals the one-dimensional `x.shape`, and a non-numeric object raises an
uncaught `TypeError`.  Then the shape check and the finiteness check run
in that order. -/
def evaluate_expression (e : Expr) (x : List ℚ) : Except Err (List FVal) :=
  match evalE x e with
  | .error m => .error (.evaluationError (evalErrPrefix ++ m))
  | .ok (.func _) => .error (.typeError "float() argument must be a string or a real number")
  | .ok .module => .error (.typeError "float() argument must be a string or a real number")
  | .ok .builtinsDict => .error (.typeError "float() argument must be a string or a real number")
  | .ok (.val (.scalar _)) => .error (.shapeMismatch shapeMsg)
  | .ok (.val (.array l)) =>
      if l.length ≠ x.length then .error (.shapeMismatch shapeMsg)
      else if l.all FVal.isFinite then .ok l
      else .error (.nonFiniteResult nonFiniteMsg)

/-- The free names of an expression (called functions included). -/
def freeNames : Expr → List String
  | .num _ => []
  | .name n => [n]
  | .neg e => freeNames e
  | .add a b | .sub a b | .mul a b | .div a b => freeNames a ++ freeNames b
  | .call f a => f :: freeNames a

/-- The names of the evaluation namespace: the symbol table plus `x`. -/
def allowedName (n : String) : Bool :=
  n == "x" || SAFE_FUNCTIONS.any (fun p => p.1 == n)

/-- `np.linspace(a, b, n)`: `n` evenly spaced points from `a` to `b`
inclusive. -/
def linspace (a b : ℚ) (n : Nat) : List ℚ :=
  if n = 0 then []
  else if n = 1 then [a]
  else (List.range n).map (fun i => a + (b - a) * i / (n - 1))

/-! ### The POST handler

`eval` parses the expression string itself; the textual parser is not part
of this embedding, so the pipeline is stated for an arbitrary parsing
function `pf` mapping the validated expression string to an AST (or to a
syntax error, which `eval` raises inside the `try` and is hence wrapped as
an evaluation error). -/

/-- `render_plot` up to its numeric work: build the grid and evaluate.
The matplotlib drawing consumes the result without touching the payload. -/
def render_samples (pf : String → Except String Expr) (p : Dict) :
    Except Err (List ℚ × List FVal) :=
  match dictGet p "xMin", dictGet p "xMax", dictGet p "samples", dictGet p "expression" with
  | some (.num a), some (.num b), some (.num n), some (.str s) =>
      let x := linspace a b n.num.toNat
      match pf s with
      | .error m => .error (.evaluationError (evalErrPrefix ++ m))
      | .ok e => (evaluate_expression e x).map (fun y => (x, y))
  | _, _, _, _ => .error (.keyError "render")

/-- The request pipeline of `do_POST`: parse, validate, render. -/
def pipeline (pf : String → Except String Expr) (b : Body) :
    Except Err (List ℚ × List FVal) := do
  let p ← parse_payload b
  let p1 ← validate_payload p
  render_samples pf p1

/-- `do_POST` (lines 189–217): the declared content length is checked
against the 1,000,000-byte ceiling before anything is read; a `ValueError`
from the pipeline is surfaced as HTTP 400 with its message, any other
exception as HTTP 500 with the generic prefix.  The result is the status
code and the error message sent, if any. -/
def do_POST (pf : String → Except String Expr) (contentLength : Nat) (b : Body) :
    Nat × Option String :=
  if contentLength > 1000000 then (413, some "Payload trop volumineux.")
  else
    match pipeline pf b with
    | .ok _ => (200, none)
    | .error e =>
        if e.isValueError then (400, some e.message)
        else (500, some ("Erreur interne: " ++ e.message))

/-! ### Heap model of the in-place mutation

Python dicts are heap objects: `parse_payload` builds `dict(DEFAULT_PAYLOAD)`
— a fresh allocation holding a copy — and `validate_payload` assigns into
the dict it is handed.  The heap is a list of dicts addressed by index;
the defaults live at some reference `dref` and each request allocates at
the end. -/

abbrev Heap := List Dict

/-- `parse_payload` with the copy made explicit: every branch that reaches
`dict(DEFAULT_PAYLOAD)` allocates a fresh cell (even the non-dict branch,
where `data.items()` raises only after the copy); the decode-error branch
allocates nothing. -/
def parse_payload_st (h : Heap) (dref : Nat) (b : Body) : Heap × Except Err Nat :=
  match b with
  | .invalid m => (h, .error (.malformedInput (malformedPrefix ++ m)))
  | .empty =>
      match h[dref]? with
      | some d => (h ++ [d], .ok h.length)
      | none => (h, .error (.keyError "defaults"))
  | .parsed v =>
      match h[dref]? with
      | none => (h, .error (.keyError "defaults"))
      | some d =>
          match v with
          | .obj kvs => (h ++ [mergeKVs d kvs], .ok h.length)
          | w => (h ++ [d], .error (.attributeError
              ("\x27" ++ jtypeName w ++ "\x27 object has no attribute \x27items\x27")))

/-- `validate_payload` on a heap reference: all its writes go to the dict
at `r` (this is the in-place mutation of lines 90–108). -/
def validate_st (h : Heap) (r : Nat) : Heap × Option Err :=
  match h[r]? with
  | none => (h, some (.keyError "payload"))
  | some d =>
      let (d1, e) := validate_core d
      (h.set r d1, e)

/-- One POST request against the heap: parse (allocating the working
copy), then validate (mutating it); rendering only reads.  The resulting
heap is all that matters for the invariant. -/
def request_st (h : Heap) (dref : Nat) (b : Body) : Heap :=
  match parse_payload_st h dref b with
  | (h1, .ok r) => (validate_st h1 r).1
  | (h1, .error _) => h1

/-! ### Declarative predicates used in the statements below -/

/-- Declarative "contains the substring". -/
def ContainsSub (n hay : List Char) : Prop :=
  ∃ a b, hay = a ++ n ++ b

/-- Declarative "contains the word with `\b` boundaries on both sides". -/
def ContainsWord (n hay : List Char) : Prop :=
  ∃ a b, hay = a ++ n ++ b ∧ boundaryOk a.getLast? = true ∧ boundaryOk b.head? = true

/-- The claim's denylist description: substring `__` or `import` anywhere,
or the whole words `exec`, `eval`, `os`, `sys`. -/
def SpecDeny (s : String) : Prop :=
  ContainsSub "__".data s.data ∨ ContainsSub "import".data s.data ∨
  ContainsWord "exec".data s.data ∨ ContainsWord "eval".data s.data ∨
  ContainsWord "os".data s.data ∨ ContainsWord "sys".data s.data

/-- The interval check of lines 68–74 fails: a coercion fault or
`x_min >= x_max`. -/
def intervalBad (p : Dict) : Bool :=
  match floatField p "xMin", floatField p "xMax" with
  | some a, some b => decide (a ≥ b)
  | _, _ => true

/-- The sample-count check of lines 76–81 fails. -/
def samplesBad (p : Dict) : Bool :=
  match intField p "samples" with
  | some n => decide (¬ (2 ≤ n ∧ n ≤ 10000))
  | none => true

/-- The line-width check of lines 100–105 fails. -/
def lineWidthBad (p : Dict) : Bool :=
  match floatField p "lineWidth" with
  | some lw => decide (¬ (1/10 ≤ lw ∧ lw ≤ 10))
  | none => true

/-! ## Lemmas about the dict operations -/

theorem dictGet_dictSet (d : Dict) (k k2 : String) (v : JVal) :
    dictGet (dictSet d k v) k2 = if k == k2 then some v else dictGet d k2 := by
  induction d with
  | nil =>
      by_cases h : k = k2 <;> simp [dictSet, dictGet, h]
  | cons p rest ih =>
      by_cases hp : p.1 = k
      · by_cases h : k = k2 <;> simp [dictSet, dictGet, hp, h]
      · by_cases h : p.1 = k2
        · have hk : ¬ k = k2 := fun e => hp (e ▸ h)
          have hk2 : ¬ k2 = k := fun e => hk e.symm
          simp [dictSet, dictGet, hp, h, hk, hk2]
        · simp [dictSet, dictGet, hp, h, ih]

theorem dictGet_dictSet_self (d : Dict) (k : String) (v : JVal) :
    dictGet (dictSet d k v) k = some v := by
  simp [dictGet_dictSet]

theorem dictGet_dictSet_ne (d : Dict) (k k2 : String) (v : JVal) (h : k ≠ k2) :
    dictGet (dictSet d k v) k2 = dictGet d k2 := by
  simp [dictGet_dictSet, h]

/-- The value the merge of `parse_payload` ends up storing under a key:
the incoming entry if present and non-null, else whatever the starting
dict held.  Stated for inputs with no duplicate keys, which is every dict
`json.loads` can produce. -/
theorem dictGet_mergeKVs (kvs : List (String × JVal)) (d : Dict) (k : String)
    (hnd : (kvs.map Prod.fst).Nodup) :
    dictGet (mergeKVs d kvs) k =
      match kvs.find? (fun p => p.1 == k) with
      | some p => if p.2.isNull then dictGet d k else some p.2
      | none => dictGet d k := by
  induction kvs generalizing d with
  | nil => simp [mergeKVs]
  | cons p rest ih =>
      have hnd' : (rest.map Prod.fst).Nodup := by
        simpa using hnd.of_cons
      have hnotin : p.1 ∉ rest.map Prod.fst := by
        intro hmem
        exact (List.nodup_cons.mp (by simpa using hnd)).1 hmem
      by_cases hk : p.1 = k
      · subst hk
        have hfind : rest.find? (fun q => q.1 == p.1) = none := by
          rw [List.find?_eq_none]
          intro q hq hbeq
          exact hnotin (List.mem_map.mpr ⟨q, hq, eq_of_beq hbeq⟩)
        by_cases hnull : p.2.isNull
        · simp only [mergeKVs, List.foldl_cons, hnull, if_true]
          have := ih d hnd'
          simp only [mergeKVs] at this
          simp [this, hfind, hnull]
        · simp only [mergeKVs, List.foldl_cons, hnull, if_false]
          have := ih (dictSet d p.1 p.2) hnd'
          simp only [mergeKVs] at this
          simp [this, hfind, hnull, dictGet_dictSet_self]
      · by_cases hnull : p.2.isNull
        · simp only [mergeKVs, List.foldl_cons, hnull, if_true]
          have := ih d hnd'
          simp only [mergeKVs] at this
          simp [this, hk]
        · simp only [mergeKVs, List.foldl_cons, hnull, if_false]
          have := ih (dictSet d p.1 p.2) hnd'
          simp only [mergeKVs] at this
          simp [this, hk, dictGet_dictSet_ne d p.1 k p.2 hk]

/-! ## The denylist scan agrees with its declarative description -/

theorem hasSub_iff (n hay : List Char) : hasSub n hay = true ↔ ContainsSub n hay := by
  constructor
  · intro h
    obtain ⟨t, ht, hpre⟩ := List.any_eq_true.mp h
    obtain ⟨b, rfl⟩ := List.isPrefixOf_iff_prefix.mp hpre
    obtain ⟨a, rfl⟩ := (List.mem_tails _ _).mp ht
    exact ⟨a, b, by simp⟩
  · rintro ⟨a, b, rfl⟩
    refine List.any_eq_true.mpr ⟨n ++ b, ?_, ?_⟩
    · exact (List.mem_tails _ _).mpr ⟨a, by simp⟩
    · exact List.isPrefixOf_iff_prefix.mpr ⟨b, rfl⟩

theorem getLast?_or_shift (a : List Char) (c : Char) (prev : Option Char) :
    ((c :: a).getLast?).or prev = (a.getLast?).or (some c) := by
  cases a with
  | nil => simp
  | cons d l =>
      have hs : (d :: l).getLast?.isSome := List.getLast?_isSome.mpr (by simp)
      obtain ⟨z, hz⟩ := Option.isSome_iff_exists.mp hs
      simp [List.getLast?_cons_cons, hz]

theorem hasWordFrom_iff (n : List Char) (hn : n ≠ []) :
    ∀ hay prev, hasWordFrom n prev hay = true ↔
      ∃ a b, hay = a ++ n ++ b ∧ boundaryOk ((a.getLast?).or prev) = true ∧
        boundaryOk b.head? = true := by
  intro hay
  induction hay with
  | nil =>
      intro prev
      simp only [hasWordFrom, Bool.false_eq_true, false_iff]
      rintro ⟨a, b, heq, -, -⟩
      have hnil : a = [] ∧ n = [] ∧ b = [] := by
        simpa [List.length_append] using congrArg List.length heq.symm
      exact hn hnil.2.1
  | cons c rest ih =>
      intro prev
      constructor
      · intro h
        rcases Bool.or_eq_true _ _ |>.mp h with hleft | hright
        · obtain ⟨⟨hprev, hpre⟩, hafter⟩ :
              (boundaryOk prev = true ∧ n.isPrefixOf (c :: rest) = true) ∧
                boundaryOk (((c :: rest).drop n.length).head?) = true := by
            constructor
            · constructor
              · exact Bool.and_elim_left (Bool.and_elim_left hleft)
              · exact Bool.and_elim_right (Bool.and_elim_left hleft)
            · exact Bool.and_elim_right hleft
          obtain ⟨b, hb⟩ := List.isPrefixOf_iff_prefix.mp hpre
          refine ⟨[], b, by simp [hb.symm], by simpa using hprev, ?_⟩
          rw [← hb, List.drop_left] at hafter
          exact hafter
        · obtain ⟨a, b, heq, hprev, hafter⟩ := (ih (some c)).mp hright
          refine ⟨c :: a, b, by simp [heq], ?_, hafter⟩
          rw [getLast?_or_shift]
          exact hprev
      · rintro ⟨a, b, heq, hprev, hafter⟩
        cases a with
        | nil =>
            apply Bool.or_eq_true _ _ |>.mpr
            left
            simp only [List.nil_append] at heq
            have hpre : n.isPrefixOf (c :: rest) = true :=
              List.isPrefixOf_iff_prefix.mpr ⟨b, heq.symm⟩
            have hdrop : ((c :: rest).drop n.length).head? = b.head? := by
              rw [heq, List.drop_left]
            simp only [List.getLast?_nil, Option.none_or] at hprev
            rw [hpre, hdrop, hprev, hafter]
            rfl
        | cons c2 a2 =>
            have hinj : c = c2 ∧ rest = a2 ++ n ++ b := by
              have h2 : c :: rest = c2 :: (a2 ++ n ++ b) := by simpa using heq
              exact ⟨by injection h2, by injection h2 with _ h3⟩
            obtain ⟨rfl, hrest⟩ := hinj
            apply Bool.or_eq_true _ _ |>.mpr
            right
            refine (ih (some c)).mpr ⟨a2, b, hrest, ?_, hafter⟩
            rw [← getLast?_or_shift a2 c prev]
            exact hprev

theorem hasWord_iff (n : List Char) (hn : n ≠ []) (hay : List Char) :
    hasWord n hay = true ↔ ContainsWord n hay := by
  unfold hasWord ContainsWord
  rw [hasWordFrom_iff n hn hay none]
  simp [Option.or_none]

/-! ## Name isolation of the evaluator -/

theorem except_bind_error {ε α β : Type} (m : ε) (f : α → Except ε β) :
    (Except.error m >>= f : Except ε β) = Except.error m := rfl

theorem except_bind_ok {ε α β : Type} (v : α) (f : α → Except ε β) :
    (Except.ok v >>= f : Except ε β) = f v := rfl

theorem envLookup_eq_none (x : List ℚ) (n : String) (h : allowedName n = false)
    (hb : n ≠ "__builtins__") :
    envLookup x n = none := by
  unfold allowedName at h
  rcases Bool.or_eq_false_iff.mp h with ⟨h1, h2⟩
  unfold envLookup
  rw [h1]
  simp only [if_false, Bool.false_eq_true]
  rw [List.find?_eq_none.mpr]
  · simp [hb]
  · intro p hp hbeq
    have := List.any_eq_false.mp h2 p hp
    exact this hbeq

/-- An expression with a free name outside the namespace (and distinct
from the resolvable `__builtins__`) always evaluates to an error (the
unknown name raises `NameError` if it is reached, and any fault raised
before it also ends the evaluation). -/
theorem evalE_error_of_badName (x : List ℚ) :
    ∀ e : Expr, (∃ n ∈ freeNames e, allowedName n = false ∧ n ≠ "__builtins__") →
      ∃ m, evalE x e = .error m := by
  intro e
  induction e with
  | num q => rintro ⟨n, hmem, -⟩; simp [freeNames] at hmem
  | name n0 =>
      rintro ⟨n, hmem, hn, hb⟩
      have : n = n0 := by simpa [freeNames] using hmem
      subst this
      exact ⟨_, by simp only [evalE]; rw [envLookup_eq_none x n hn hb]⟩
  | neg a ih =>
      rintro ⟨n, hmem, hn, hb⟩
      simp only [freeNames] at hmem
      obtain ⟨m, hm⟩ := ih ⟨n, hmem, hn, hb⟩
      exact ⟨m, by simp only [evalE]; rw [hm]; rfl⟩
  | add a b iha ihb =>
      rintro ⟨n, hmem, hn, hb⟩
      rcases List.mem_append.mp (by simpa [freeNames] using hmem) with hina | hinb
      · obtain ⟨m, hm⟩ := iha ⟨n, hina, hn, hb⟩
        exact ⟨m, by simp only [evalE]; rw [hm]; rfl⟩
      · cases hva : evalE x a with
        | error m => exact ⟨m, by simp only [evalE]; rw [hva]; rfl⟩
        | ok va =>
            obtain ⟨m, hm⟩ := ihb ⟨n, hinb, hn, hb⟩
            exact ⟨m, by simp only [evalE]; rw [hva, except_bind_ok, hm]; rfl⟩
  | sub a b iha ihb =>
      rintro ⟨n, hmem, hn, hb⟩
      rcases List.mem_append.mp (by simpa [freeNames] using hmem) with hina | hinb
      · obtain ⟨m, hm⟩ := iha ⟨n, hina, hn, hb⟩
        exact ⟨m, by simp only [evalE]; rw [hm]; rfl⟩
      · cases hva : evalE x a with
        | error m => exact ⟨m, by simp only [evalE]; rw [hva]; rfl⟩
        | ok va =>
            obtain ⟨m, hm⟩ := ihb ⟨n, hinb, hn, hb⟩
            exact ⟨m, by simp only [evalE]; rw [hva, except_bind_ok, hm]; rfl⟩
  | mul a b iha ihb =>
      rintro ⟨n, hmem, hn, hb⟩
      rcases List.mem_append.mp (by simpa [freeNames] using hmem) with hina | hinb
      · obtain ⟨m, hm⟩ := iha ⟨n, hina, hn, hb⟩
        exact ⟨m, by simp only [evalE]; rw [hm]; rfl⟩
      · cases hva : evalE x a with
        | error m => exact ⟨m, by simp only [evalE]; rw [hva]; rfl⟩
        | ok va =>
            obtain ⟨m, hm⟩ := ihb ⟨n, hinb, hn, hb⟩
            exact ⟨m, by simp only [evalE]; rw [hva, except_bind_ok, hm]; rfl⟩
  | div a b iha ihb =>
      rintro ⟨n, hmem, hn, hb⟩
      rcases List.mem_append.mp (by simpa [freeNames] using hmem) with hina | hinb
      · obtain ⟨m, hm⟩ := iha ⟨n, hina, hn, hb⟩
        exact ⟨m, by simp only [evalE]; rw [hm]; rfl⟩
      · cases hva : evalE x a with
        | error m => exact ⟨m, by simp only [evalE]; rw [hva]; rfl⟩
        | ok va =>
            obtain ⟨m, hm⟩ := ihb ⟨n, hinb, hn, hb⟩
            exact ⟨m, by simp only [evalE]; rw [hva, except_bind_ok, hm]; rfl⟩
  | call f a ih =>
      rintro ⟨n, hmem, hn, hb⟩
      simp only [freeNames, List.mem_cons] at hmem
      rcases hmem with rfl | hina
      · exact ⟨_, by simp only [evalE]; rw [envLookup_eq_none x n hn hb]⟩
      · cases hlook : envLookup x f with
        | none => exact ⟨_, by simp only [evalE]; rw [hlook]⟩
        | some ev =>
            cases ev with
            | val v => exact ⟨_, by simp only [evalE]; rw [hlook]⟩
            | module => exact ⟨_, by simp only [evalE]; rw [hlook]⟩
            | builtinsDict => exact ⟨_, by simp only [evalE]; rw [hlook]⟩
            | func g =>
                obtain ⟨m, hm⟩ := ih ⟨n, hina, hn, hb⟩
                exact ⟨m, by simp only [evalE]; rw [hlook, hm]; rfl⟩

/-! ## Behaviour of `validate_payload`, check by check -/

theorem intervalBad_eq_false_iff (p : Dict) :
    intervalBad p = false ↔
      ∃ a b, floatField p "xMin" = some a ∧ floatField p "xMax" = some b ∧ a < b := by
  unfold intervalBad
  cases h1 : floatField p "xMin" with
  | none => simp [h1]
  | some a =>
      cases h2 : floatField p "xMax" with
      | none => simp [h2]
      | some b =>
          simp only [decide_eq_false_iff_not, not_le, ge_iff_le]
          constructor
          · intro h; exact ⟨a, b, rfl, rfl, h⟩
          · rintro ⟨a2, b2, ha, hb, hlt⟩
            obtain rfl : a = a2 := by injection ha
            obtain rfl : b = b2 := by injection hb
            exact hlt

theorem samplesBad_eq_false_iff (p : Dict) :
    samplesBad p = false ↔
      ∃ n : Int, intField p "samples" = some n ∧ 2 ≤ n ∧ n ≤ 10000 := by
  cases h1 : intField p "samples" with
  | none => simp [samplesBad, h1]
  | some n =>
      simp only [samplesBad, h1, decide_eq_false_iff_not, not_not]
      constructor
      · rintro ⟨hl, hr⟩; exact ⟨n, rfl, hl, hr⟩
      · rintro ⟨n2, hn, hl, hr⟩
        obtain rfl : n = n2 := by injection hn
        exact ⟨hl, hr⟩

theorem validate_interval (p : Dict) (h : intervalBad p = true) :
    validate_payload p = .error (.validationError intervalMsg) := by
  unfold intervalBad at h
  cases h1 : floatField p "xMin" with
  | none => simp only [validate_payload, validate_core, h1]
  | some a =>
      cases h2 : floatField p "xMax" with
      | none => simp only [validate_payload, validate_core, h1, h2]
      | some b =>
          rw [h1, h2] at h
          simp only [decide_eq_true_eq] at h
          simp only [validate_payload, validate_core, h1, h2, if_pos h]

theorem validate_samples (p : Dict) (h1 : intervalBad p = false) (h2 : samplesBad p = true) :
    validate_payload p = .error (.validationError samplesMsg) := by
  obtain ⟨a, b, hxa, hxb, hab⟩ := (intervalBad_eq_false_iff p).mp h1
  have hnot : ¬ (a ≥ b) := not_le.mpr hab
  unfold samplesBad at h2
  cases hs : intField p "samples" with
  | none =>
      simp only [validate_payload, validate_core, hxa, hxb, if_neg hnot, hs]
  | some n =>
      rw [hs] at h2
      have h2' : (decide (2 ≤ n) && decide (n ≤ 10000)) = false := by
        cases hcase : (decide (2 ≤ n) && decide (n ≤ 10000)) with
        | false => rfl
        | true =>
            obtain ⟨ha2, hb2⟩ := (Bool.and_eq_true _ _).mp hcase
            exact absurd ⟨of_decide_eq_true ha2, of_decide_eq_true hb2⟩
              (of_decide_eq_true h2)
      simp only [validate_payload, validate_core, hxa, hxb, if_neg hnot, hs]
      rw [h2']
      rfl

theorem validate_emptyExpr (p : Dict) (h1 : intervalBad p = false) (h2 : samplesBad p = false)
    (ev : JVal) (hev : dictGet p "expression" = some ev)
    (he : pyStrip (pyStr ev) = "") :
    validate_payload p = .error (.validationError emptyExprMsg) := by
  obtain ⟨a, b, hxa, hxb, hab⟩ := (intervalBad_eq_false_iff p).mp h1
  obtain ⟨n, hs, hn2, hn10⟩ := (samplesBad_eq_false_iff p).mp h2
  have hnot : ¬ (a ≥ b) := not_le.mpr hab
  have hok : (decide (2 ≤ n) && decide (n ≤ 10000)) = true := by
    rw [decide_eq_true hn2, decide_eq_true hn10]; rfl
  have he' : (pyStrip (pyStr ev) == "") = true := by rw [he]; rfl
  simp only [validate_payload, validate_core, hxa, hxb, if_neg hnot, hs, hev]
  rw [hok, he']
  rfl

theorem validate_deny (p : Dict) (h1 : intervalBad p = false) (h2 : samplesBad p = false)
    (ev : JVal) (hev : dictGet p "expression" = some ev)
    (hne : pyStrip (pyStr ev) ≠ "")
    (hd : forbiddenScan (pyStrip (pyStr ev)) = true) :
    validate_payload p = .error (.validationError denyMsg) := by
  obtain ⟨a, b, hxa, hxb, hab⟩ := (intervalBad_eq_false_iff p).mp h1
  obtain ⟨n, hs, hn2, hn10⟩ := (samplesBad_eq_false_iff p).mp h2
  have hnot : ¬ (a ≥ b) := not_le.mpr hab
  have hok : (decide (2 ≤ n) && decide (n ≤ 10000)) = true := by
    rw [decide_eq_true hn2, decide_eq_true hn10]; rfl
  have he' : (pyStrip (pyStr ev) == "") = false := beq_eq_false_iff_ne.mpr hne
  simp only [validate_payload, validate_core, hxa, hxb, if_neg hnot, hs, hev]
  rw [hok, he', hd]
  rfl

theorem floatField_dictSet_ne (d : Dict) (k k2 : String) (v : JVal) (h : k ≠ k2) :
    floatField (dictSet d k v) k2 = floatField d k2 := by
  unfold floatField
  rw [dictGet_dictSet_ne d k k2 v h]

theorem validate_lineWidth (p : Dict) (h1 : intervalBad p = false) (h2 : samplesBad p = false)
    (ev : JVal) (hev : dictGet p "expression" = some ev)
    (hne : pyStrip (pyStr ev) ≠ "")
    (hnd : forbiddenScan (pyStrip (pyStr ev)) = false)
    (h3 : lineWidthBad p = true) :
    validate_payload p = .error (.validationError lineWidthMsg) := by
  obtain ⟨a, b, hxa, hxb, hab⟩ := (intervalBad_eq_false_iff p).mp h1
  obtain ⟨n, hs, hn2, hn10⟩ := (samplesBad_eq_false_iff p).mp h2
  have hnot : ¬ (a ≥ b) := not_le.mpr hab
  have hok : (decide (2 ≤ n) && decide (n ≤ 10000)) = true := by
    rw [decide_eq_true hn2, decide_eq_true hn10]; rfl
  have he' : (pyStrip (pyStr ev) == "") = false := beq_eq_false_iff_ne.mpr hne
  unfold lineWidthBad at h3
  simp only [validate_payload, validate_core, hxa, hxb, if_neg hnot, hs, hev]
  rw [hok, he', hnd]
  simp only [floatField_dictSet_ne _ _ _ _ (by decide : "marker" ≠ "lineWidth"),
    floatField_dictSet_ne _ _ _ _ (by decide : "color" ≠ "lineWidth"),
    floatField_dictSet_ne _ _ _ _ (by decide : "yLabel" ≠ "lineWidth"),
    floatField_dictSet_ne _ _ _ _ (by decide : "xLabel" ≠ "lineWidth"),
    floatField_dictSet_ne _ _ _ _ (by decide : "title" ≠ "lineWidth"),
    floatField_dictSet_ne _ _ _ _ (by decide : "expression" ≠ "lineWidth"),
    floatField_dictSet_ne _ _ _ _ (by decide : "samples" ≠ "lineWidth"),
    floatField_dictSet_ne _ _ _ _ (by decide : "xMax" ≠ "lineWidth"),
    floatField_dictSet_ne _ _ _ _ (by decide : "xMin" ≠ "lineWidth")]
  cases hlw : floatField p "lineWidth" with
  | none => rfl
  | some lw =>
      rw [hlw] at h3
      have h3' : (decide (1/10 ≤ lw) && decide (lw ≤ 10)) = false := by
        cases hcase : (decide (1/10 ≤ lw) && decide (lw ≤ 10)) with
        | false => rfl
        | true =>
            obtain ⟨ha2, hb2⟩ := (Bool.and_eq_true _ _).mp hcase
            exact absurd ⟨of_decide_eq_true ha2, of_decide_eq_true hb2⟩
              (of_decide_eq_true h3)
      dsimp only
      rw [h3']
      rfl

theorem validate_success (p : Dict) (a b : ℚ) (n : Int) (ev : JVal) (lw : ℚ)
    (hxa : floatField p "xMin" = some a) (hxb : floatField p "xMax" = some b)
    (hab : a < b)
    (hs : intField p "samples" = some n) (hn2 : 2 ≤ n) (hn10 : n ≤ 10000)
    (hev : dictGet p "expression" = some ev)
    (hne : pyStrip (pyStr ev) ≠ "")
    (hnd : forbiddenScan (pyStrip (pyStr ev)) = false)
    (hlw : floatField p "lineWidth" = some lw) (hlw1 : 1/10 ≤ lw) (hlw2 : lw ≤ 10) :
    ∃ d, validate_payload p = .ok d ∧
      dictGet d "xMin" = some (.num a) ∧
      dictGet d "xMax" = some (.num b) ∧
      dictGet d "samples" = some (.num n) ∧
      dictGet d "expression" = some (.str (pyStrip (pyStr ev))) := by
  have hnot : ¬ (a ≥ b) := not_le.mpr hab
  have hok : (decide (2 ≤ n) && decide (n ≤ 10000)) = true := by
    rw [decide_eq_true hn2, decide_eq_true hn10]; rfl
  have he' : (pyStrip (pyStr ev) == "") = false := beq_eq_false_iff_ne.mpr hne
  have hlwok : (decide (1/10 ≤ lw) && decide (lw ≤ 10)) = true := by
    rw [decide_eq_true hlw1, decide_eq_true hlw2]; rfl
  simp only [validate_payload, validate_core, hxa, hxb, if_neg hnot, hs, hev]
  rw [hok, he', hnd]
  simp only [floatField_dictSet_ne _ _ _ _ (by decide : "marker" ≠ "lineWidth"),
    floatField_dictSet_ne _ _ _ _ (by decide : "color" ≠ "lineWidth"),
    floatField_dictSet_ne _ _ _ _ (by decide : "yLabel" ≠ "lineWidth"),
    floatField_dictSet_ne _ _ _ _ (by decide : "xLabel" ≠ "lineWidth"),
    floatField_dictSet_ne _ _ _ _ (by decide : "title" ≠ "lineWidth"),
    floatField_dictSet_ne _ _ _ _ (by decide : "expression" ≠ "lineWidth"),
    floatField_dictSet_ne _ _ _ _ (by decide : "samples" ≠ "lineWidth"),
    floatField_dictSet_ne _ _ _ _ (by decide : "xMax" ≠ "lineWidth"),
    floatField_dictSet_ne _ _ _ _ (by decide : "xMin" ≠ "lineWidth"),
    hlw]
  rw [hlwok]
  refine ⟨_, by rfl, ?_, ?_, ?_, ?_⟩ <;>
    simp [dictGet_dictSet]

/-! ## The defaults dict survives request processing -/

theorem getElem?_append_lt (l₁ l₂ : Heap) (i : Nat) (hi : i < l₁.length) :
    (l₁ ++ l₂)[i]? = l₁[i]? := by
  rw [List.getElem?_append, if_pos hi]

theorem set_fresh_getElem (h : Heap) (d d2 : Dict) (dref : Nat) (hd : dref < h.length) :
    ((h ++ [d]).set h.length d2)[dref]? = h[dref]? := by
  rw [List.getElem?_set_ne (by omega : h.length ≠ dref)]
  exact getElem?_append_lt h [d] dref hd

/-- Validating the freshly allocated copy mutates only that copy. -/
theorem alloc_validate_preserves (h : Heap) (dref : Nat) (d : Dict) (hd : dref < h.length) :
    ((validate_st (h ++ [d]) h.length).1)[dref]? = h[dref]? ∧
      h.length ≤ ((validate_st (h ++ [d]) h.length).1).length := by
  unfold validate_st
  have hfresh : (h ++ [d])[h.length]? = some d := List.getElem?_concat_length _ _
  rw [hfresh]
  dsimp only
  constructor
  · exact set_fresh_getElem h d _ dref hd
  · simp

/-- A single POST request leaves the defaults cell untouched and never
shrinks the heap. -/
theorem request_st_preserves (h : Heap) (dref : Nat) (b : Body) (hd : dref < h.length) :
    (request_st h dref b)[dref]? = h[dref]? ∧ h.length ≤ (request_st h dref b).length := by
  have hget : h[dref]? = some h[dref] := List.getElem?_eq_getElem hd
  cases b with
  | invalid m => exact ⟨rfl, le_refl _⟩
  | empty =>
      have hp : parse_payload_st h dref .empty = (h ++ [h[dref]], .ok h.length) := by
        unfold parse_payload_st
        rw [hget]
      unfold request_st
      rw [hp]
      exact alloc_validate_preserves h dref h[dref] hd
  | parsed v =>
      cases v with
      | obj kvs =>
          have hp : parse_payload_st h dref (.parsed (.obj kvs)) =
              (h ++ [mergeKVs h[dref] kvs], .ok h.length) := by
            unfold parse_payload_st
            rw [hget]
          unfold request_st
          rw [hp]
          exact alloc_validate_preserves h dref (mergeKVs h[dref] kvs) hd
      | num q =>
          have hp : parse_payload_st h dref (.parsed (.num q)) =
              (h ++ [h[dref]], .error (.attributeError
                ("\x27" ++ jtypeName (.num q) ++ "\x27 object has no attribute \x27items\x27"))) := by
            unfold parse_payload_st
            rw [hget]
          unfold request_st
          rw [hp]
          exact ⟨by rw [getElem?_append_lt h _ dref hd], by simp⟩
      | str s =>
          have hp : parse_payload_st h dref (.parsed (.str s)) =
              (h ++ [h[dref]], .error (.attributeError
                ("\x27" ++ jtypeName (.str s) ++ "\x27 object has no attribute \x27items\x27"))) := by
            unfold parse_payload_st
            rw [hget]
          unfold request_st
          rw [hp]
          exact ⟨by rw [getElem?_append_lt h _ dref hd], by simp⟩
      | bool b2 =>
          have hp : parse_payload_st h dref (.parsed (.bool b2)) =
              (h ++ [h[dref]], .error (.attributeError
                ("\x27" ++ jtypeName (.bool b2) ++ "\x27 object has no attribute \x27items\x27"))) := by
            unfold parse_payload_st
            rw [hget]
          unfold request_st
          rw [hp]
          exact ⟨by rw [getElem?_append_lt h _ dref hd], by simp⟩
      | null =>
          have hp : parse_payload_st h dref (.parsed .null) =
              (h ++ [h[dref]], .error (.attributeError
                ("\x27" ++ jtypeName .null ++ "\x27 object has no attribute \x27items\x27"))) := by
            unfold parse_payload_st
            rw [hget]
          unfold request_st
          rw [hp]
          exact ⟨by rw [getElem?_append_lt h _ dref hd], by simp⟩
      | arr l =>
          have hp : parse_payload_st h dref (.parsed (.arr l)) =
              (h ++ [h[dref]], .error (.attributeError
                ("\x27" ++ jtypeName (.arr l) ++ "\x27 object has no attribute \x27items\x27"))) := by
            unfold parse_payload_st
            rw [hget]
          unfold request_st
          rw [hp]
          exact ⟨by rw [getElem?_append_lt h _ dref hd], by simp⟩

/-- Any sequence of POST requests leaves the defaults cell untouched. -/
theorem requests_preserve (bs : List Body) (h : Heap) (dref : Nat) (hd : dref < h.length) :
    (bs.foldl (fun acc b => request_st acc dref b) h)[dref]? = h[dref]? := by
  induction bs generalizing h with
  | nil => rfl
  | cons b rest ih =>
      have step := request_st_preserves h dref b hd
      have hd' : dref < (request_st h dref b).length := lt_of_lt_of_le hd step.2
      simp only [List.foldl_cons]
      rw [ih _ hd', step.1]

/-- The executable scan agrees with the declarative denylist. -/
theorem forbiddenScan_iff (s : String) : forbiddenScan s = true ↔ SpecDeny s := by
  unfold forbiddenScan SpecDeny
  simp only [Bool.or_eq_true]
  rw [hasSub_iff, hasSub_iff,
    hasWord_iff _ (by decide) _, hasWord_iff _ (by decide) _,
    hasWord_iff _ (by decide) _, hasWord_iff _ (by decide) _]
  tauto

/-! ## Claims -/

/-- C1 as stated is false: the namespace is not exclusively the
SymbolTable plus `x` — eval's globals dict makes the name `__builtins__`
itself resolve (to the empty dict), so that expression, although outside
SymbolTable ∪ \x7bx\x7d, does not fail with `EvaluationError`: the dict
reaches `np.array` outside the `try` and raises an uncaught `TypeError`
(surfaced as HTTP 500). -/
theorem c1_builtins_counterexample :
    allowedName "__builtins__" = false ∧
      evalE [0] (Expr.name "__builtins__") = .ok .builtinsDict ∧
      evaluate_expression (Expr.name "__builtins__") [0] =
        .error (.typeError "float() argument must be a string or a real number") ∧
      ∀ m, evaluate_expression (Expr.name "__builtins__") [0] ≠
        .error (.evaluationError m) := by
  refine ⟨by decide, rfl, rfl, ?_⟩
  intro m h
  rw [show evaluate_expression (Expr.name "__builtins__") [0] =
      .error (.typeError "float() argument must be a string or a real number") from rfl] at h
  injection h with h2
  exact Err.noConfusion h2

/-- C1 (amended): the evaluation namespace is the SymbolTable, `x`, and
the extra name `__builtins__` exposed by eval's globals; an expression
with a free name outside that set fails with `EvaluationError` (nothing
else is ever executed for it). -/
theorem c1_namespace_isolation_amended (e : Expr) (x : List ℚ)
    (h : ∃ n ∈ freeNames e, allowedName n = false ∧ n ≠ "__builtins__") :
    ∃ m, evaluate_expression e x = .error (.evaluationError m) := by
  obtain ⟨m, hm⟩ := evalE_error_of_badName x e h
  exact ⟨evalErrPrefix ++ m, by unfold evaluate_expression; rw [hm]⟩

theorem c1_namespace_isolation_amended_witness :
    (∃ n ∈ freeNames (Expr.name "foo"), allowedName n = false ∧ n ≠ "__builtins__") ∧
      ∃ m, evaluate_expression (Expr.name "foo") [0] = .error (.evaluationError m) :=
  ⟨⟨"foo", by decide, by decide, by decide⟩,
    c1_namespace_isolation_amended (Expr.name "foo") [0]
      ⟨"foo", by decide, by decide, by decide⟩⟩

/-- C2 as stated is false: a scalar raw result is not broadcast.  The
constant expression `1` over a two-point grid fails with `ShapeMismatch`
instead of returning `[1, 1]`. -/
theorem c2_no_broadcast_counterexample :
    evaluate_expression (Expr.num 1) [0, 1] = .error (.shapeMismatch shapeMsg) := by
  rfl

/-- C2 (amended): a raw scalar result is wrapped by `np.array(..., dtype=float)`
into a zero-dimensional array whose shape `()` never equals the
one-dimensional shape of `x`, so evaluation always fails with
`ShapeMismatch` — no broadcasting takes place. -/
theorem c2_scalar_result_shape_mismatch (e : Expr) (x : List ℚ) (s : FVal)
    (h : evalE x e = .ok (.val (.scalar s))) :
    evaluate_expression e x = .error (.shapeMismatch shapeMsg) := by
  unfold evaluate_expression
  rw [h]

theorem c2_scalar_result_shape_mismatch_witness :
    evalE [0, 1, 2] (Expr.num 5) = .ok (.val (.scalar (.fin 5))) ∧
      evaluate_expression (Expr.num 5) [0, 1, 2] = .error (.shapeMismatch shapeMsg) :=
  ⟨rfl, c2_scalar_result_shape_mismatch (Expr.num 5) [0, 1, 2] (.fin 5) rfl⟩

/-- C3 as stated is false: the body `5` is valid JSON but not an object;
`data.items()` raises `AttributeError`, which is not a `ValueError`, so the
request is surfaced as HTTP 500, not 400. -/
theorem c3_nonobject_body_counterexample :
    (do_POST (fun _ => .ok (.num 0)) 100 (.parsed (.num 5))).1 = 500 := by
  rfl

/-- C3 (amended): a body that fails to decode as JSON fails with
`MalformedInput` carrying the parse error and is surfaced as HTTP 400; a
body that decodes to a non-object instead escapes as an `AttributeError`
and is surfaced as HTTP 500. -/
theorem c3_malformed_input_routing (pf : String → Except String Expr)
    (cl : Nat) (hcl : cl ≤ 1000000) (m : String) :
    do_POST pf cl (.invalid m) = (400, some (malformedPrefix ++ m)) ∧
      ∀ v : JVal, v.isObj = false → (do_POST pf cl (.parsed v)).1 = 500 := by
  have hsize : ¬ (cl > 1000000) := not_lt.mpr hcl
  constructor
  · unfold do_POST pipeline
    rw [if_neg hsize]
    rfl
  · intro v hv
    unfold do_POST pipeline
    rw [if_neg hsize]
    cases v with
    | obj kvs => simp [JVal.isObj] at hv
    | num q => rfl
    | str s => rfl
    | bool b => rfl
    | null => rfl
    | arr l => rfl

theorem c3_malformed_input_routing_witness :
    (100 ≤ 1000000) ∧
      (do_POST (fun _ => .ok (.num 0)) 100 (.invalid "boom") =
        (400, some (malformedPrefix ++ "boom")) ∧
       ∀ v : JVal, v.isObj = false →
        (do_POST (fun _ => .ok (.num 0)) 100 (.parsed v)).1 = 500) :=
  ⟨by decide, c3_malformed_input_routing (fun _ => .ok (.num 0)) 100 (by decide) "boom"⟩

/-- C4 as stated is false: an input key absent from the Defaults record is
not ignored — `payload.update` copies it into the output, so the output
does not contain exactly the keys of Defaults. -/
theorem c4_unknown_key_counterexample :
    parse_payload (.parsed (.obj [("foo", .num 1)])) =
        .ok (DEFAULT_PAYLOAD ++ [("foo", .num 1)]) ∧
      dictGet (DEFAULT_PAYLOAD ++ [("foo", .num 1)]) "foo" = some (.num 1) ∧
      dictGet DEFAULT_PAYLOAD "foo" = none :=
  ⟨rfl, rfl, rfl⟩

/-- C4 (amended): an empty body yields the Defaults record verbatim; for a
parsed object (with the unique keys `json.loads` guarantees), each key of
the output holds the incoming value when present and non-null and the
starting default otherwise — but unknown non-null input keys are copied
into the output as well rather than being ignored. -/
theorem c4_merge_semantics (kvs : List (String × JVal))
    (hnd : (kvs.map Prod.fst).Nodup) (k : String) :
    parse_payload .empty = .ok DEFAULT_PAYLOAD ∧
      ∃ d, parse_payload (.parsed (.obj kvs)) = .ok d ∧
        dictGet d k = (match kvs.find? (fun p => p.1 == k) with
          | some p => if p.2.isNull then dictGet DEFAULT_PAYLOAD k else some p.2
          | none => dictGet DEFAULT_PAYLOAD k) :=
  ⟨rfl, mergeKVs DEFAULT_PAYLOAD kvs, rfl, dictGet_mergeKVs kvs DEFAULT_PAYLOAD k hnd⟩

theorem c4_merge_semantics_witness :
    ([("xMin", JVal.num 3), ("xMax", JVal.null), ("bar", JVal.num 7)].map Prod.fst).Nodup ∧
      (parse_payload .empty = .ok DEFAULT_PAYLOAD ∧
        ∃ d, parse_payload (.parsed (.obj
            [("xMin", JVal.num 3), ("xMax", JVal.null), ("bar", JVal.num 7)])) = .ok d ∧
          dictGet d "xMin" =
            (match [("xMin", JVal.num 3), ("xMax", JVal.null),
                ("bar", JVal.num 7)].find? (fun p => p.1 == "xMin") with
              | some p => if p.2.isNull then dictGet DEFAULT_PAYLOAD "xMin" else some p.2
              | none => dictGet DEFAULT_PAYLOAD "xMin")) :=
  ⟨by decide,
    c4_merge_semantics [("xMin", JVal.num 3), ("xMax", JVal.null), ("bar", JVal.num 7)]
      (by decide) "xMin"⟩

/-- C5: once the earlier checks pass, validation fails with the
"disallowed elements" error exactly when the trimmed expression contains
`__` or `import` as a substring or `exec`/`eval`/`os`/`sys` as a
word-boundary match; and such a failure short-circuits the whole pipeline,
so the evaluator is never consulted. -/
theorem c5_denylist_scan (p : Dict) (h1 : intervalBad p = false)
    (h2 : samplesBad p = false) (s : String)
    (hev : dictGet p "expression" = some (.str s))
    (hne : pyStrip s ≠ "") :
    (validate_payload p = .error (.validationError denyMsg) ↔ SpecDeny (pyStrip s)) ∧
      (validate_payload p = .error (.validationError denyMsg) →
        ∀ pf b, parse_payload b = .ok p →
          pipeline pf b = .error (.validationError denyMsg)) := by
  have hstr : pyStr (JVal.str s) = s := rfl
  constructor
  · constructor
    · intro hval
      by_contra hnd
      have hscan : forbiddenScan (pyStrip s) = false := by
        cases hcase : forbiddenScan (pyStrip s) with
        | false => rfl
        | true => exact absurd ((forbiddenScan_iff _).mp hcase) hnd
      cases h3 : lineWidthBad p with
      | true =>
          have := validate_lineWidth p h1 h2 (.str s) hev
            (by rw [hstr]; exact hne) (by rw [hstr]; exact hscan) h3
          rw [this] at hval
          have hmsg : lineWidthMsg = denyMsg := by
            injection hval with h4
            injection h4
          exact absurd hmsg (by decide)
      | false =>
          obtain ⟨a, b, hxa, hxb, hab⟩ := (intervalBad_eq_false_iff p).mp h1
          obtain ⟨n, hs, hn2, hn10⟩ := (samplesBad_eq_false_iff p).mp h2
          obtain ⟨lw, hlw, hlwr⟩ : ∃ lw, floatField p "lineWidth" = some lw ∧
              1/10 ≤ lw ∧ lw ≤ 10 := by
            unfold lineWidthBad at h3
            cases hl : floatField p "lineWidth" with
            | none => rw [hl] at h3; cases h3
            | some lw =>
                rw [hl] at h3
                simp only [decide_eq_false_iff_not, not_not] at h3
                exact ⟨lw, rfl, h3⟩
          obtain ⟨d, hd, -⟩ := validate_success p a b n (.str s) lw hxa hxb hab
            hs hn2 hn10 hev (by rw [hstr]; exact hne) (by rw [hstr]; exact hscan)
            hlw hlwr.1 hlwr.2
          rw [hd] at hval
          cases hval
    · intro hsd
      exact validate_deny p h1 h2 (.str s) hev (by rw [hstr]; exact hne)
        (by rw [hstr]; exact (forbiddenScan_iff _).mpr hsd)
  · intro hval pf b hparse
    unfold pipeline
    rw [hparse, except_bind_ok, hval, except_bind_error]

theorem c5_denylist_scan_witness :
    validate_payload (dictSet DEFAULT_PAYLOAD "expression" (.str "import os")) =
      .error (.validationError denyMsg) :=
  (c5_denylist_scan (dictSet DEFAULT_PAYLOAD "expression" (.str "import os"))
      (by decide) (by decide) "import os" rfl (by decide)).1.mpr
    (Or.inr (Or.inl ⟨[], " os".data, by decide⟩))

/-- C6: the evaluator returns a `y` sequence only when its length equals
that of `x` and every element is finite; an evaluated array of the wrong
length fails with `ShapeMismatch`, and one holding an infinity or a NaN
(as `1/x` does over a grid containing zero) fails with `NonFiniteResult`. -/
theorem c6_shape_and_finiteness (e : Expr) (x : List ℚ) :
    (∀ y, evaluate_expression e x = .ok y →
        y.length = x.length ∧ ∀ v ∈ y, v.isFinite = true) ∧
      (∀ l, evalE x e = .ok (.val (.array l)) → l.length ≠ x.length →
        evaluate_expression e x = .error (.shapeMismatch shapeMsg)) ∧
      (∀ l, evalE x e = .ok (.val (.array l)) → l.length = x.length →
        (∃ v ∈ l, v.isFinite = false) →
        evaluate_expression e x = .error (.nonFiniteResult nonFiniteMsg)) := by
  refine ⟨?_, ?_, ?_⟩
  · intro y hy
    unfold evaluate_expression at hy
    cases hev : evalE x e with
    | error m => rw [hev] at hy; cases hy
    | ok v =>
        rw [hev] at hy
        cases v with
        | func g => cases hy
        | module => cases hy
        | builtinsDict => cases hy
        | val w =>
            cases w with
            | scalar s => cases hy
            | array l =>
                dsimp only at hy
                by_cases hlen : l.length ≠ x.length
                · rw [if_pos hlen] at hy; cases hy
                · rw [if_neg hlen] at hy
                  by_cases hfin : l.all FVal.isFinite = true
                  · rw [if_pos hfin] at hy
                    injection hy with hy
                    subst hy
                    exact ⟨not_not.mp hlen, fun v hv =>
                      List.all_eq_true.mp hfin v hv⟩
                  · rw [if_neg hfin] at hy; cases hy
  · intro l hl hne
    unfold evaluate_expression
    rw [hl]
    dsimp only
    rw [if_pos hne]
  · intro l hl hlen hbad
    unfold evaluate_expression
    rw [hl]
    dsimp only
    rw [if_neg (by rw [hlen]; exact fun hc => hc rfl)]
    obtain ⟨v, hv, hvf⟩ := hbad
    have hall : l.all FVal.isFinite = false := by
      cases hcase : l.all FVal.isFinite with
      | false => rfl
      | true => rw [List.all_eq_true.mp hcase v hv] at hvf; cases hvf
    rw [if_neg (by simp [hall])]

theorem c6_shape_and_finiteness_witness :
    evalE [-1, 0, 1] (Expr.div (Expr.num 1) (Expr.name "x")) =
        .ok (.val (.array [.fin (-1), .inf, .fin 1])) ∧
      evaluate_expression (Expr.div (Expr.num 1) (Expr.name "x")) [-1, 0, 1] =
        .error (.nonFiniteResult nonFiniteMsg) :=
  ⟨by rfl,
    (c6_shape_and_finiteness (Expr.div (Expr.num 1) (Expr.name "x")) [-1, 0, 1]).2.2
      [.fin (-1), .inf, .fin 1] (by rfl) (by rfl) ⟨.inf, by decide, rfl⟩⟩

/-- C7: validation short-circuits in the order interval, sample count,
empty expression, denylist, line width; and a non-numeric value for a
numeric field produces exactly the same error message as an out-of-range
value (`floatField`/`intField` return `none` for both missing and
non-coercible values, which land in the same `except` branch). -/
theorem c7_validation_order (p : Dict) :
    (intervalBad p = true → validate_payload p = .error (.validationError intervalMsg)) ∧
      (intervalBad p = false → samplesBad p = true →
        validate_payload p = .error (.validationError samplesMsg)) ∧
      (∀ ev, intervalBad p = false → samplesBad p = false →
        dictGet p "expression" = some ev → pyStrip (pyStr ev) = "" →
        validate_payload p = .error (.validationError emptyExprMsg)) ∧
      (∀ ev, intervalBad p = false → samplesBad p = false →
        dictGet p "expression" = some ev → pyStrip (pyStr ev) ≠ "" →
        forbiddenScan (pyStrip (pyStr ev)) = true →
        validate_payload p = .error (.validationError denyMsg)) ∧
      (∀ ev, intervalBad p = false → samplesBad p = false →
        dictGet p "expression" = some ev → pyStrip (pyStr ev) ≠ "" →
        forbiddenScan (pyStrip (pyStr ev)) = false → lineWidthBad p = true →
        validate_payload p = .error (.validationError lineWidthMsg)) ∧
      (∀ v, dictGet p "xMin" = some v → pyFloat v = none →
        validate_payload p = .error (.validationError intervalMsg)) ∧
      (∀ v, intervalBad p = false → dictGet p "samples" = some v → pyInt v = none →
        validate_payload p = .error (.validationError samplesMsg)) := by
  refine ⟨validate_interval p, validate_samples p,
    fun ev h1 h2 hev he => validate_emptyExpr p h1 h2 ev hev he,
    fun ev h1 h2 hev hne hd => validate_deny p h1 h2 ev hev hne hd,
    fun ev h1 h2 hev hne hnd h3 => validate_lineWidth p h1 h2 ev hev hne hnd h3,
    ?_, ?_⟩
  · intro v hv hnum
    apply validate_interval
    unfold intervalBad floatField
    rw [hv]
    simp [hnum]
  · intro v h1 hv hnum
    apply validate_samples p h1
    unfold samplesBad intField
    rw [hv]
    simp [hnum]

theorem c7_validation_order_witness :
    intervalBad (dictSet (dictSet DEFAULT_PAYLOAD "samples" (.num 0))
        "lineWidth" (.num 99)) = false ∧
      samplesBad (dictSet (dictSet DEFAULT_PAYLOAD "samples" (.num 0))
        "lineWidth" (.num 99)) = true ∧
      validate_payload (dictSet (dictSet DEFAULT_PAYLOAD "samples" (.num 0))
        "lineWidth" (.num 99)) = .error (.validationError samplesMsg) :=
  ⟨by decide, by decide,
    (c7_validation_order (dictSet (dictSet DEFAULT_PAYLOAD "samples" (.num 0))
        "lineWidth" (.num 99))).2.1 (by decide) (by decide)⟩

/-- C8: both bounds of both ranges are inclusive — samples 2 and 10000 are
accepted while 1 and 10001 are rejected, and lineWidth 0.1 and 10 are
accepted while 0.09 and 10.01 are rejected (everything else at its
default). -/
theorem c8_boundaries :
    (validate_payload (dictSet DEFAULT_PAYLOAD "samples" (.num 2))).isOk = true ∧
      (validate_payload (dictSet DEFAULT_PAYLOAD "samples" (.num 10000))).isOk = true ∧
      validate_payload (dictSet DEFAULT_PAYLOAD "samples" (.num 1)) =
        .error (.validationError samplesMsg) ∧
      validate_payload (dictSet DEFAULT_PAYLOAD "samples" (.num 10001)) =
        .error (.validationError samplesMsg) ∧
      (validate_payload (dictSet DEFAULT_PAYLOAD "lineWidth" (.num (1/10)))).isOk = true ∧
      (validate_payload (dictSet DEFAULT_PAYLOAD "lineWidth" (.num 10))).isOk = true ∧
      validate_payload (dictSet DEFAULT_PAYLOAD "lineWidth" (.num (9/100))) =
        .error (.validationError lineWidthMsg) ∧
      validate_payload (dictSet DEFAULT_PAYLOAD "lineWidth" (.num (1001/100))) =
        .error (.validationError lineWidthMsg) :=
  ⟨by decide, by decide, by rfl, by rfl, by decide, by decide, by rfl, by rfl⟩

/-- C9: the defaults dict is never mutated by request processing — the
normalizer allocates a fresh copy and the validator's in-place writes hit
only that copy, so after any sequence of requests the heap cell holding
the defaults is unchanged. -/
theorem c9_defaults_immutable (h : Heap) (dref : Nat) (hd : dref < h.length)
    (bs : List Body) :
    (bs.foldl (fun acc b => request_st acc dref b) h)[dref]? = h[dref]? :=
  requests_preserve bs h dref hd

theorem c9_defaults_immutable_witness :
    0 < [DEFAULT_PAYLOAD].length ∧
      (([Body.empty, Body.parsed (.obj [("samples", JVal.num 5)]),
          Body.parsed (.num 3)].foldl
        (fun acc b => request_st acc 0 b) [DEFAULT_PAYLOAD])[0]? =
          [DEFAULT_PAYLOAD][0]?) :=
  ⟨by decide,
    c9_defaults_immutable [DEFAULT_PAYLOAD] 0 (by decide)
      [Body.empty, Body.parsed (.obj [("samples", JVal.num 5)]), Body.parsed (.num 3)]⟩

/-- C10: a non-integer sample count is truncated toward zero by `int()`
before the range check; when the truncation lies in range, validation
succeeds and records the truncated value. -/
theorem c10_samples_truncation (q : ℚ) (n : Int) (hq : n = q.num.tdiv q.den)
    (h2 : 2 ≤ n) (h10 : n ≤ 10000) :
    ∃ d, validate_payload (dictSet DEFAULT_PAYLOAD "samples" (.num q)) = .ok d ∧
      dictGet d "samples" = some (.num n) := by
  set p := dictSet DEFAULT_PAYLOAD "samples" (.num q) with hp
  have hxa : floatField p "xMin" = some (-2 * piFloat) := by
    rw [hp]
    unfold floatField
    rw [dictGet_dictSet_ne _ _ _ _ (by decide)]
    rfl
  have hxb : floatField p "xMax" = some (2 * piFloat) := by
    rw [hp]
    unfold floatField
    rw [dictGet_dictSet_ne _ _ _ _ (by decide)]
    rfl
  have hab : (-2 * piFloat) < 2 * piFloat := by decide
  have hs : intField p "samples" = some n := by
    rw [hp]
    unfold intField
    rw [dictGet_dictSet_self]
    rw [hq]
    rfl
  have hev : dictGet p "expression" = some (.str "sin(2 * pi * x)") := by
    rw [hp, dictGet_dictSet_ne _ _ _ _ (by decide)]
    rfl
  have hlw : floatField p "lineWidth" = some 2 := by
    rw [hp]
    unfold floatField
    rw [dictGet_dictSet_ne _ _ _ _ (by decide)]
    rfl
  obtain ⟨d, hd, -, -, hsamp, -⟩ := validate_success p (-2 * piFloat) (2 * piFloat)
    n (.str "sin(2 * pi * x)") 2 hxa hxb hab hs h2 h10 hev (by decide) (by decide)
    hlw (by decide) (by decide)
  exact ⟨d, hd, hsamp⟩

theorem c10_samples_truncation_witness :
    ((2 : Int) = ((29 : ℚ)/10).num.tdiv ((29 : ℚ)/10).den) ∧
      ∃ d, validate_payload (dictSet DEFAULT_PAYLOAD "samples" (.num ((29 : ℚ)/10))) =
          .ok d ∧
        dictGet d "samples" = some (.num 2) :=
  ⟨by decide, c10_samples_truncation ((29 : ℚ)/10) 2 (by decide) (by decide) (by decide)⟩

end Plot
